import Mathlib

/-!
Shallow embedding of the rfb Go package (rfb.go): an RFB (VNC) server
library.  Pure translations of the source functions; machine integers are
modelled as `Nat`/`Int` with explicit `% 2^w` where the Go code performs
fixed-width arithmetic, byte streams as `List Nat`, and panics / fatal
protocol errors as `Option.none`.
-/

namespace RFB

/-! ## Wire primitives (binary.Read / binary.Write, big endian) -/

/-- Big-endian bytes of a 16-bit value (binary.Write BigEndian uint16). -/
def u16be (n : Nat) : List Nat := [n >>> 8 % 256, n % 256]

/-- Big-endian bytes of a 32-bit value (binary.Write BigEndian uint32/int32). -/
def u32be (n : Nat) : List Nat := [n >>> 24 % 256, n >>> 16 % 256, n >>> 8 % 256, n % 256]

/-- Go `uint16(i)` conversion of a (possibly negative) int: two's-complement wrap. -/
def u16ofInt (i : Int) : Nat := (i % 65536).toNat

/-- Read one byte from the client stream (Conn.readByte); stream exhaustion is
an I/O error, which the source turns into a connection-fatal `failf`. -/
def readByte (s : List Nat) : Option (Nat × List Nat) :=
  match s with
  | [] => none
  | b :: t => some (b, t)

/-- Read and discard `n` padding bytes (Conn.readPadding). -/
def readPadding : Nat → List Nat → Option (List Nat)
  | 0, s => some s
  | n + 1, s => (readByte s).bind fun bt => readPadding n bt.2

/-- binary.Read of a big-endian uint16. -/
def readU16 (s : List Nat) : Option (Nat × List Nat) := do
  let (a, s) ← readByte s
  let (b, s) ← readByte s
  pure (a * 256 + b, s)

/-- binary.Read of a big-endian uint32. -/
def readU32 (s : List Nat) : Option (Nat × List Nat) := do
  let (a, s) ← readByte s
  let (b, s) ← readByte s
  let (c, s) ← readByte s
  let (d, s) ← readByte s
  pure (((a * 256 + b) * 256 + c) * 256 + d, s)

/-- bufio.Reader.ReadSlice('\n'): the bytes up to and including the first
newline; an error (hence connection-fatal) when no newline arrives. -/
def readLine : List Nat → Option (List Nat × List Nat)
  | [] => none
  | b :: t =>
    if b = 10 then some ([10], t)
    else (readLine t).map fun lr => (b :: lr.1, lr.2)

/-- Go lexicographic string comparison `a <= b`, on byte lists. -/
def strLe : List Nat → List Nat → Bool
  | [], _ => true
  | _ :: _, [] => false
  | a :: s, b :: t => if a < b then true else if b < a then false else strLe s t

/-- Sequence a fallible element-wise action over a list (a Go `for` loop whose
body may fail); `none` as soon as one element fails. -/
def optMap {α β : Type} (f : α → Option β) : List α → Option (List β)
  | [] => some []
  | a :: t => do
    let b ← f a
    let r ← optMap f t
    pure (b :: r)

/-- Go `for i := lo; i < hi; i++` iteration values. -/
def intRange (lo hi : Int) : List Int :=
  (List.range (hi - lo).toNat).map fun (i : Nat) => lo + (i : Int)

/-! ## Data model -/

/-- image.Rectangle: Min and Max corners, flattened. -/
structure Rect where
  minX : Int
  minY : Int
  maxX : Int
  maxY : Int
deriving DecidableEq, Repr

/-- image.Rect(x0, y0, x1, y1): canonicalises a rectangle by swapping
coordinates that are in the wrong order. -/
def mkRect (x0 y0 x1 y1 : Int) : Rect :=
  let xs := if x1 < x0 then (x1, x0) else (x0, x1)
  let ys := if y1 < y0 then (y1, y0) else (y0, y1)
  ⟨xs.1, ys.1, xs.2, ys.2⟩

/-- Rectangle.Dx. -/
def Rect.dx (r : Rect) : Int := r.maxX - r.minX

/-- Rectangle.Dy. -/
def Rect.dy (r : Rect) : Int := r.maxY - r.minY

/-- color.RGBA: four 8-bit channels.  Go compares interface colors of the same
dynamic type by struct equality. -/
structure Color where
  r : Nat
  g : Nat
  b : Nat
  a : Nat
deriving DecidableEq, Repr

/-- image.Image: a bounding rectangle and a per-point color accessor. -/
structure Image where
  bounds : Rect
  At : Int → Int → Color

/-- PixelFormat (rfb.go): bits-per-pixel, depth, flags, channel maxes and shifts. -/
structure PixelFormat where
  BPP : Nat
  Depth : Nat
  BigEndian : Nat
  TrueColour : Nat
  RedMax : Nat
  GreenMax : Nat
  BlueMax : Nat
  RedShift : Nat
  GreenShift : Nat
  BlueShift : Nat
deriving DecidableEq, Repr

/-- FrameBufferUpdateRequest (rfb.go, section 6.4.3). -/
structure FrameBufferUpdateRequest where
  IncrementalFlag : Nat
  X : Nat
  Y : Nat
  Width : Nat
  Height : Nat
deriving DecidableEq, Repr

/-- FrameBufferUpdateRequest.incremental(). -/
def FrameBufferUpdateRequest.incremental (r : FrameBufferUpdateRequest) : Bool :=
  r.IncrementalFlag != 0

/-- KeyEvent (rfb.go, section 6.4.4). -/
structure KeyEvent where
  DownFlag : Nat
  Key : Nat
deriving DecidableEq, Repr

/-- PointerEvent (rfb.go, section 6.4.5). -/
structure PointerEvent where
  ButtonMask : Nat
  X : Nat
  Y : Nat
deriving DecidableEq, Repr

/-- Tagged value carried on the connection's event channel
(`interface{}` holding either a KeyEvent or a PointerEvent). -/
inductive RFBEvent where
  | key : KeyEvent → RFBEvent
  | pointer : PointerEvent → RFBEvent
deriving DecidableEq, Repr

/-- Buffered Go channel of events: capacity and current buffer. -/
structure EventQueue where
  cap : Nat
  buf : List RFBEvent
deriving DecidableEq, Repr

/-- Non-blocking channel send, a Go select with a default arm: the event is
appended when there is room and silently dropped otherwise. -/
def trySend (q : EventQueue) (e : RFBEvent) : EventQueue :=
  if q.buf.length < q.cap then ⟨q.cap, q.buf ++ [e]⟩ else q

/-- Server (rfb.go): canonical framebuffer dimensions.  The channel of new
connections is concurrency plumbing and carries no data relevant here. -/
structure Server where
  width : Int
  height : Int
deriving DecidableEq, Repr

/-- NewServer (rfb.go lines 39-53): arguments below 1 are replaced by 1. -/
def NewServer (width height : Int) : Server :=
  { width := if width < 1 then 1 else width
    height := if height < 1 then 1 else height }

/-- Conn.dimensions(): reads the server's width and height. -/
def dimensions (s : Server) : Int × Int := (s.width, s.height)

/-! ## The dirty-rectangle comparator (compareImages, rfb.go lines 535-583) -/

/-- Values of the Go loop `for sectionTop := bounds.Min.Y; sectionTop <
bounds.Max.Y; sectionTop += sectionSize`. -/
def stripTops (b : Rect) : List Int :=
  (List.range (((b.maxY - b.minY).toNat + 63) / 64)).map fun k => b.minY + 64 * (k : Int)

/-- Inner x-loop body state: accumulated rectangles and the strip's
already-emitted section lefts (the Go `changedSections` map). -/
def compareRow (o n : Image) (b : Rect) (sectionTop : Int) (y : Int)
    (st : List Rect × List Int) : List Rect × List Int :=
  (intRange b.minX b.maxX).foldl (fun st x =>
    if o.At x y ≠ n.At x y then
      let sectionLeft := x - Int.tmod x 64
      if sectionLeft ∈ st.2 then st
      else
        let sectionRight := min (sectionLeft + 64) b.maxX
        let sectionBottom := min (sectionTop + 64) b.maxY
        (st.1 ++ [mkRect sectionLeft sectionTop sectionRight sectionBottom],
         st.2 ++ [sectionLeft])
    else st) st

/-- compareImages: panics (`none`) on two nil images or mismatched bounds;
returns the full bounds for a nil old image, the empty list for a nil new
image, and otherwise scans 64-pixel strips for changed sections.  Note the
row loop of each strip runs to `bounds.Max.Y` exactly as in the source. -/
def compareImages (oldImg newImg : Option Image) : Option (List Rect) :=
  match oldImg, newImg with
  | none, none => none
  | none, some n => some [n.bounds]
  | some _, none => some []
  | some o, some n =>
    if n.bounds ≠ o.bounds then none
    else
      let bounds := n.bounds
      some ((stripTops bounds).foldl (fun rc sectionTop =>
        ((intRange sectionTop bounds.maxY).foldl
          (fun st y => compareRow o n bounds sectionTop y st) (rc, [])).1) [])

/-! ## The transcoder (inRange, pushGenericLocked, fast path) -/

/-- inRange (rfb.go lines 585-593): quantize a 16-bit channel to the client's
max; any unsupported max panics (`none`), which is fatal to the connection. -/
def inRange (v : Nat) (max : Nat) : Option Nat :=
  match max with
  | 31 => some (v >>> (16 - 5))
  | 3 => some (v >>> (16 - 2))
  | _ => none

/-- Go uint32 shift-left: counts of 32 or more clear the value. -/
def u32shl (x s : Nat) : Nat := (x <<< s) % 4294967296

/-- color.RGBA.RGBA() channel widening: `r |= r << 8` (8 bits replicated to 16). -/
def widen16 (v : Nat) : Nat := v ||| v <<< 8

/-- Bytes of one pixel as written by the body of pushGenericLocked's inner
loop: quantize the widened channels, compose the word with the client's
shifts, truncate to BPP bits, and emit in the client's byte order. -/
def encodePixel (f : PixelFormat) (c : Color) : Option (List Nat) := do
  let r ← inRange (widen16 c.r) f.RedMax
  let g ← inRange (widen16 c.g) f.GreenMax
  let b ← inRange (widen16 c.b) f.BlueMax
  let word := u32shl r f.RedShift ||| u32shl g f.GreenShift ||| u32shl b f.BlueShift
  let be := f.BigEndian != 0
  match f.BPP with
  | 32 =>
    some (if be then u32be word
          else [word % 256, word >>> 8 % 256, word >>> 16 % 256, word >>> 24 % 256])
  | 16 =>
    let v := word % 65536
    some (if be then [v >>> 8 % 256, v % 256] else [v % 256, v >>> 8 % 256])
  | 8 => some [word % 256]
  | _ => none

/-- pushGenericLocked (rfb.go lines 384-413): encode the pixels of `rect`
row-major; `none` on any unsupported max or BPP (the source panics there). -/
def pushGenericLocked (f : PixelFormat) (im : Image) (rect : Rect) : Option (List Nat) := do
  let rows ← optMap (fun y => do
      let cells ← optMap (fun x => encodePixel f (im.At x y)) (intRange rect.minX rect.maxX)
      pure cells.flatten) (intRange rect.minY rect.maxY)
  pure rows.flatten

/-- Loop of pushRGBAScreensThousandsLocked: walk the RGBA byte array with a
16-bit accumulator, emitting two bytes per four input bytes. -/
def fastGo (be : Bool) : List Nat → Nat → Nat → List Nat
  | [], _, _ => []
  | v :: rest, i, acc =>
    if i % 4 = 0 then fastGo be rest (i + 1) (((v &&& 248) <<< 7) % 65536)
    else if i % 4 = 1 then fastGo be rest (i + 1) (acc ||| ((v &&& 248) <<< 2) % 65536)
    else if i % 4 = 2 then fastGo be rest (i + 1) (acc ||| v >>> 3)
    else
      (if be then [acc >>> 8 % 256, acc % 256] else [acc % 256, acc >>> 8 % 256]) ++
        fastGo be rest (i + 1) acc

/-- pushRGBAScreensThousandsLocked (rfb.go lines 350-379) on the image's raw
Pix bytes: the bytes the function hands to the buffered writer. -/
def pushRGBAScreensThousandsLocked (be : Bool) (pix : List Nat) : List Nat :=
  fastGo be pix 0 0

/-- image.RGBA restricted to what the two paths use: dimensions (origin
(0,0), stride `4*w`) and the contiguous Pix byte array. -/
structure RGBAImage where
  w : Nat
  h : Nat
  pix : List Nat

/-- image.RGBA.At / Bounds as an abstract Image: the pixel at (x, y) reads
the four bytes at offset `(y-minY)*Stride + (x-minX)*4`; out-of-bounds
points are the zero color. -/
def RGBAImage.toImage (im : RGBAImage) : Image :=
  { bounds := mkRect 0 0 im.w im.h
    At := fun x y =>
      if 0 ≤ x ∧ x < (im.w : Int) ∧ 0 ≤ y ∧ y < (im.h : Int) then
        ⟨im.pix.getD (4 * (y.toNat * im.w + x.toNat)) 0,
         im.pix.getD (4 * (y.toNat * im.w + x.toNat) + 1) 0,
         im.pix.getD (4 * (y.toNat * im.w + x.toNat) + 2) 0,
         im.pix.getD (4 * (y.toNat * im.w + x.toNat) + 3) 0⟩
      else ⟨0, 0, 0, 0⟩ }

/-! ## Update pipeline (pushFrame / pushImage, rfb.go lines 292-348) -/

/-- Rectangle list chosen by pushImage: the comparator (note the source
passes the new image as compareImages' first argument and the last-sent
image as its second) for incremental requests, the full image bounds
otherwise. -/
def updateRects (img : Image) (last : Option Image)
    (ur : FrameBufferUpdateRequest) : Option (List Rect) :=
  if ur.incremental then compareImages (some img) last else some [img.bounds]

/-- pushImage: FramebufferUpdate header, then per rectangle the rect header
(x, y, w, h as uint16, Raw encoding as int32 0) and its pixels.  A panic
anywhere (`none`) reaches the client as a closed connection, never as bytes,
because the buffered writer is only flushed at the end. -/
def pushImage (f : PixelFormat) (img : Image) (last : Option Image)
    (ur : FrameBufferUpdateRequest) : Option (List Nat) := do
  let rects ← updateRects img last ur
  if f.TrueColour = 0 then none
  else do
    let body ← optMap (fun r => do
        let px ← pushGenericLocked f img r
        pure (u16be (u16ofInt r.minX) ++ u16be (u16ofInt r.minY) ++
              u16be (u16ofInt r.dx) ++ u16be (u16ofInt r.dy) ++ u32be 0 ++ px)) rects
    pure ([0, 0] ++ u16be (rects.length % 65536) ++ body.flatten)

/-- pushFrame (rfb.go lines 292-302): a nil handle pulled from the feed means
"no change" — return with no bytes written and `last` untouched; otherwise
push the image and record it as the new `last`. -/
def pushFrame (f : PixelFormat) (li : Option Image) (last : Option Image)
    (ur : FrameBufferUpdateRequest) : Option (List Nat × Option Image) :=
  match li with
  | none => some ([], last)
  | some img => (pushImage f img last ur).map fun out => (out, some img)

/-! ## Handshake (Conn.serve, rfb.go lines 182-256) -/

/-- Bytes of the version string "RFB 003.003\n". -/
def v3Bytes : List Nat := [82, 70, 66, 32, 48, 48, 51, 46, 48, 48, 51, 10]

/-- Bytes of the version string "RFB 003.007\n". -/
def v7Bytes : List Nat := [82, 70, 66, 32, 48, 48, 51, 46, 48, 48, 55, 10]

/-- Bytes of the version string "RFB 003.008\n". -/
def v8Bytes : List Nat := [82, 70, 66, 32, 48, 48, 51, 46, 48, 48, 56, 10]

/-- ServerInit bytes (rfb.go lines 236-256): u16 width and height, the eight
fields of the freshly installed default pixel format, three padding bytes,
the int32 name length 6, and the ASCII bytes of "rfb-go". -/
def serverInitBytes (w h : Nat) : List Nat :=
  u16be (w % 65536) ++ u16be (h % 65536) ++
  [16, 16, 0, 1] ++ u16be 31 ++ u16be 31 ++ u16be 31 ++ [10, 5, 0] ++
  [0, 0, 0] ++ u32be 6 ++ [114, 102, 98, 45, 103, 111]

/-- Handshake phase of Conn.serve: version exchange, security negotiation,
ClientInit, ServerInit.  Returns the bytes the server flushes on a successful
handshake; `none` models a connection-fatal failure (on which nothing
buffered but unflushed reaches the wire). -/
def serveHandshake (w h : Nat) (input : List Nat) : Option (List Nat) := do
  let (ver, rest) ← readLine input
  if ver = v3Bytes ∨ ver = v7Bytes ∨ ver = v8Bytes then do
    let (auth, rest1) ←
      if strLe v7Bytes ver then do
        let (wanted, r) ← readByte rest
        if wanted = 1 then some (([1, 1] : List Nat), r) else none
      else some (u32be 1, rest)
    let result := if strLe v8Bytes ver then u32be 0 else []
    let (_, _) ← readByte rest1
    pure (v8Bytes ++ auth ++ result ++ serverInitBytes w h)
  else none

/-! ## Command handlers (rfb.go lines 432-529) -/

/-- Conn.handleSetPixelFormat (rfb.go lines 432-451): 3 padding bytes, the
ten pixel-format fields (13 bytes), 3 trailing padding bytes; the parsed
record becomes the connection's format. -/
def handleSetPixelFormat (s : List Nat) : Option (PixelFormat × List Nat) := do
  let s1 ← readPadding 3 s
  let (bpp, s2) ← readByte s1
  let (depth, s3) ← readByte s2
  let (beflag, s4) ← readByte s3
  let (tc, s5) ← readByte s4
  let (rmax, s6) ← readU16 s5
  let (gmax, s7) ← readU16 s6
  let (bmax, s8) ← readU16 s7
  let (rs, s9) ← readByte s8
  let (gs, s10) ← readByte s9
  let (bs, s11) ← readByte s10
  let s12 ← readPadding 3 s11
  pure (⟨bpp, depth, beflag, tc, rmax, gmax, bmax, rs, gs, bs⟩, s12)

/-- Conn.handleKeyEvent (rfb.go lines 500-510): down flag, 2 padding bytes,
u32 key; the event goes to the event channel non-blockingly. -/
def handleKeyEvent (s : List Nat) (q : EventQueue) : Option (EventQueue × List Nat) := do
  let (down, s1) ← readByte s
  let s2 ← readPadding 2 s1
  let (key, s3) ← readU32 s2
  pure (trySend q (.key ⟨down, key⟩), s3)

/-- Conn.handlePointerEvent (rfb.go lines 519-529): button mask, u16 x, u16 y;
the event goes to the event channel non-blockingly. -/
def handlePointerEvent (s : List Nat) (q : EventQueue) : Option (EventQueue × List Nat) := do
  let (mask, s1) ← readByte s
  let (x, s2) ← readU16 s1
  let (y, s3) ← readU16 s2
  pure (trySend q (.pointer ⟨mask, x, y⟩), s3)

/-! ## Support definitions for the statements and proofs -/

/-- Word the fast path has accumulated when it reaches the alpha byte of a
pixel whose first three bytes were r, g, b. -/
def fastWord (r g b : Nat) : Nat :=
  ((r &&& 248) <<< 7) % 65536 ||| ((g &&& 248) <<< 2) % 65536 ||| b >>> 3

/-- Two bytes the fast path emits for one pixel. -/
def pixPair (be : Bool) (r g b : Nat) : List Nat :=
  if be then [fastWord r g b >>> 8 % 256, fastWord r g b % 256]
  else [fastWord r g b % 256, fastWord r g b >>> 8 % 256]

/-- Uniform image over a 1x128 frame: the old frame of the one-pixel-change
comparator scenario. -/
def oldImgC1 : Image := ⟨mkRect 0 0 1 128, fun _ _ => ⟨0, 0, 0, 0⟩⟩

/-- Image equal to `oldImgC1` everywhere except at the single pixel (0, 100). -/
def newImgC1 : Image :=
  ⟨mkRect 0 0 1 128, fun x y => if x = 0 ∧ y = 100 then ⟨1, 0, 0, 0⟩ else ⟨0, 0, 0, 0⟩⟩

/-- Default server-preferred pixel format installed during the handshake. -/
def thousandsFormat : PixelFormat := ⟨16, 16, 0, 1, 31, 31, 31, 10, 5, 0⟩

/-- Uniform 1x1 image used to instantiate universally quantified theorems. -/
def imgOnePixel : Image := ⟨mkRect 0 0 1 1, fun _ _ => ⟨0, 0, 0, 0⟩⟩

/-- Event queue with no free slot. -/
def fullQueue : EventQueue := ⟨0, []⟩

/-- Event queue with free slots (the source's capacity, 16). -/
def roomyQueue : EventQueue := ⟨16, []⟩

/-- Concrete one-pixel RGBA image used to instantiate the path-equivalence
theorem. -/
def rgbaOnePixel : RGBAImage := ⟨1, 1, [255, 8, 3, 0]⟩

/-! ## Helper lemmas -/

set_option maxRecDepth 1000000

/-- Quantizing a replicated 8-bit channel by 11 bits equals dropping its
low 3 bits. -/
theorem widen16_shr11 : ∀ r < 256, (r ||| r <<< 8) >>> (16 - 5) = r >>> 3 := by decide

/-- Red byte handling of the fast path agrees with quantize-then-shift. -/
theorem fast_red : ∀ r < 256, ((r &&& 248) <<< 7) % 65536 = (r >>> 3) <<< 10 := by decide

/-- Green byte handling of the fast path agrees with quantize-then-shift. -/
theorem fast_green : ∀ g < 256, ((g &&& 248) <<< 2) % 65536 = (g >>> 3) <<< 5 := by decide

/-- A quantized 5-bit channel is below 32. -/
theorem shr3_lt : ∀ r < 256, r >>> 3 < 32 := by decide

/-- A Thousands-format pixel word fits in 16 bits. -/
theorem word_lt : ∀ a < 32, ∀ b < 32, ∀ c < 32, (a <<< 10 ||| b <<< 5 ||| c) < 65536 := by
  decide

/-- Reading any position of a byte list whose members are bytes, with
default 0, yields a byte. -/
theorem getD_lt_256 (pix : List Nat) (hb : ∀ b ∈ pix, b < 256) (k : Nat) :
    pix.getD k 0 < 256 := by
  by_cases hk : k < pix.length
  · rw [List.getD_eq_getElem pix 0 hk]
    exact hb _ (List.getElem_mem hk)
  · rw [List.getD_eq_default pix 0 (by omega)]
    omega

/-- On the Thousands pixel format the generic path encodes one RGBA pixel
to exactly the fast path's two bytes. -/
theorem encodePixel_thousands (f : PixelFormat) (c : Color)
    (hbpp : f.BPP = 16) (hrm : f.RedMax = 31) (hgm : f.GreenMax = 31)
    (hbm : f.BlueMax = 31) (hrs : f.RedShift = 10) (hgs : f.GreenShift = 5)
    (hbs : f.BlueShift = 0) (h1 : c.r < 256) (h2 : c.g < 256) (h3 : c.b < 256) :
    encodePixel f c = some (pixPair (f.BigEndian != 0) c.r c.g c.b) := by
  have hr3 := shr3_lt c.r h1
  have hg3 := shr3_lt c.g h2
  have hb3 := shr3_lt c.b h3
  have hwlt := word_lt (c.r >>> 3) hr3 (c.g >>> 3) hg3 (c.b >>> 3) hb3
  have sr : u32shl (c.r >>> 3) 10 = (c.r >>> 3) <<< 10 := by
    unfold u32shl
    rw [Nat.mod_eq_of_lt]
    rw [Nat.shiftLeft_eq]
    omega
  have sg : u32shl (c.g >>> 3) 5 = (c.g >>> 3) <<< 5 := by
    unfold u32shl
    rw [Nat.mod_eq_of_lt]
    rw [Nat.shiftLeft_eq]
    omega
  have sb : u32shl (c.b >>> 3) 0 = c.b >>> 3 := by
    unfold u32shl
    rw [Nat.shiftLeft_zero, Nat.mod_eq_of_lt]
    calc c.b >>> 3 < 32 := hb3
      _ < 4294967296 := by omega
  simp only [encodePixel, inRange, hbpp, hrm, hgm, hbm, hrs, hgs, hbs, widen16,
    widen16_shr11 c.r h1, widen16_shr11 c.g h2, widen16_shr11 c.b h3, Bind.bind,
    Option.bind]
  simp only [sr, sg, sb, pixPair, fastWord, fast_red c.r h1, fast_green c.g h2,
    Nat.mod_eq_of_lt hwlt]

/-- One whole pixel step of the fast path's byte loop. -/
theorem fastGo_group (be : Bool) (r g b a : Nat) (t : List Nat) (i u : Nat)
    (h : i % 4 = 0) :
    fastGo be (r :: g :: b :: a :: t) i u =
      pixPair be r g b ++ fastGo be t (i + 4) (fastWord r g b) := by
  have e1 : (i + 1) % 4 = 1 := by omega
  have e2 : (i + 1 + 1) % 4 = 2 := by omega
  have e3 : (i + 1 + 1 + 1) % 4 = 3 := by omega
  have e4 : i + 1 + 1 + 1 + 1 = i + 4 := by omega
  simp only [fastGo, h, e1, e2, e3, e4, pixPair, fastWord]
  norm_num

/-- The fast path's byte loop flattens to one pixel pair per four input
bytes, indexed from the Pix array. -/
theorem fastGo_flat (be : Bool) :
    ∀ (n : Nat) (pix : List Nat) (i u : Nat), pix.length = 4 * n → i % 4 = 0 →
      fastGo be pix i u =
        ((List.range n).map fun j =>
          pixPair be (pix.getD (4 * j) 0) (pix.getD (4 * j + 1) 0)
            (pix.getD (4 * j + 2) 0)).flatten := by
  intro n
  induction n with
  | zero =>
    intro pix i u hlen _
    have : pix = [] := List.eq_nil_of_length_eq_zero (by omega)
    subst this
    simp [fastGo]
  | succ n ih =>
    intro pix i u hlen hi
    match pix, hlen with
    | r :: g :: b :: a :: t, hlen =>
      have hlt : t.length = 4 * n := by simp at hlen; omega
      rw [fastGo_group be r g b a t i u hi, ih t (i + 4) (fastWord r g b) hlt (by omega)]
      rw [List.range_succ_eq_map]
      simp only [List.map_cons, List.flatten_cons, List.map_map]
      congr 1

/-- A fallible loop whose body succeeds on every element collects the
pointwise results. -/
theorem optMap_eq_map {α β : Type} (F : α → Option β) (G : α → β) :
    ∀ l : List α, (∀ a ∈ l, F a = some (G a)) → optMap F l = some (l.map G) := by
  intro l
  induction l with
  | nil => intro _; rfl
  | cons a t ih =>
    intro h
    have ha := h a (by simp)
    have ht := ih fun x hx => h x (by simp [hx])
    simp only [optMap, ha, ht, Bind.bind, Option.bind, List.map_cons]
    rfl

/-- A loop from 0 to a natural bound visits exactly the naturals below it. -/
theorem intRange_natCast (n : Nat) :
    intRange 0 (n : Int) = (List.range n).map fun (i : Nat) => (i : Int) := by
  simp [intRange]

/-- image.Rect with ordered corners keeps them. -/
theorem mkRect_of_le (x0 y0 x1 y1 : Int) (hx : x0 ≤ x1) (hy : y0 ≤ y1) :
    mkRect x0 y0 x1 y1 = ⟨x0, y0, x1, y1⟩ := by
  simp only [mkRect]
  rw [if_neg (by omega), if_neg (by omega)]

/-- In-bounds pixel access of the RGBA image model. -/
theorem rgba_At (im : RGBAImage) (x y : Nat) (hx : x < im.w) (hy : y < im.h) :
    im.toImage.At x y =
      ⟨im.pix.getD (4 * (y * im.w + x)) 0, im.pix.getD (4 * (y * im.w + x) + 1) 0,
       im.pix.getD (4 * (y * im.w + x) + 2) 0, im.pix.getD (4 * (y * im.w + x) + 3) 0⟩ := by
  simp only [RGBAImage.toImage]
  rw [if_pos]
  · simp
  · exact ⟨by omega, by exact_mod_cast Int.ofNat_lt.2 hx, by omega,
      by exact_mod_cast Int.ofNat_lt.2 hy⟩

/-- Row-major double iteration flattens to a single scan of all pixel
indices. -/
theorem range_mul_flatten {α : Type} (p : Nat → List α) (w h : Nat) :
    ((List.range h).map fun y =>
      ((List.range w).map fun x => p (y * w + x)).flatten).flatten =
      ((List.range (w * h)).map p).flatten := by
  induction h with
  | zero => simp
  | succ h ih =>
    rw [List.range_succ, Nat.mul_succ, List.range_add]
    simp only [List.map_append, List.flatten_append, List.map_map, ih]
    congr 1
    simp only [List.map_cons, List.map_nil, List.flatten_cons, List.flatten_nil,
      List.append_nil]
    congr 1
    apply List.map_congr_left
    intro x _
    simp [Function.comp_apply]
    congr 1
    ring

/-- On the Thousands format the generic path over the full image bounds
produces exactly one pixel pair per pixel, in row-major Pix order. -/
theorem pushGeneric_thousands (f : PixelFormat) (im : RGBAImage)
    (hbpp : f.BPP = 16) (hrm : f.RedMax = 31) (hgm : f.GreenMax = 31)
    (hbm : f.BlueMax = 31) (hrs : f.RedShift = 10) (hgs : f.GreenShift = 5)
    (hbs : f.BlueShift = 0) (hbytes : ∀ b ∈ im.pix, b < 256) :
    pushGenericLocked f im.toImage (mkRect 0 0 im.w im.h) =
      some (((List.range (im.w * im.h)).map fun j =>
        pixPair (f.BigEndian != 0) (im.pix.getD (4 * j) 0) (im.pix.getD (4 * j + 1) 0)
          (im.pix.getD (4 * j + 2) 0)).flatten) := by
  have hrect : mkRect 0 0 (im.w : Int) (im.h : Int) = ⟨0, 0, im.w, im.h⟩ :=
    mkRect_of_le _ _ _ _ (Int.natCast_nonneg _) (Int.natCast_nonneg _)
  have hrow : ∀ y, y < im.h →
      optMap (fun x => encodePixel f (im.toImage.At x (y : Int)))
          (intRange 0 (im.w : Int)) =
        some ((List.range im.w).map fun x =>
          pixPair (f.BigEndian != 0) (im.pix.getD (4 * (y * im.w + x)) 0)
            (im.pix.getD (4 * (y * im.w + x) + 1) 0)
            (im.pix.getD (4 * (y * im.w + x) + 2) 0)) := by
    intro y hy
    rw [intRange_natCast]
    rw [optMap_eq_map _ (fun xi : Int =>
        pixPair (f.BigEndian != 0) (im.pix.getD (4 * (y * im.w + xi.toNat)) 0)
          (im.pix.getD (4 * (y * im.w + xi.toNat) + 1) 0)
          (im.pix.getD (4 * (y * im.w + xi.toNat) + 2) 0)) _ ?_]
    · rw [List.map_map]
      apply congrArg
      apply List.map_congr_left
      intro x hx
      simp
    · intro a ha
      simp only [List.mem_map, List.mem_range] at ha
      obtain ⟨x, hx, rfl⟩ := ha
      rw [rgba_At im x y hx hy]
      rw [encodePixel_thousands f _ hbpp hrm hgm hbm hrs hgs hbs
        (getD_lt_256 im.pix hbytes _) (getD_lt_256 im.pix hbytes _)
        (getD_lt_256 im.pix hbytes _)]
      simp
  unfold pushGenericLocked
  simp only [hrect]
  rw [optMap_eq_map _ (fun yi : Int =>
      ((List.range im.w).map fun x =>
        pixPair (f.BigEndian != 0) (im.pix.getD (4 * (yi.toNat * im.w + x)) 0)
          (im.pix.getD (4 * (yi.toNat * im.w + x) + 1) 0)
          (im.pix.getD (4 * (yi.toNat * im.w + x) + 2) 0)).flatten) _ ?_]
  · simp only [Bind.bind, Option.bind]
    apply congrArg
    rw [intRange_natCast, List.map_map, ← range_mul_flatten]
    apply congrArg
    apply List.map_congr_left
    intro y hy
    simp
  · intro a ha
    simp only [intRange_natCast, List.mem_map, List.mem_range] at ha
    obtain ⟨y, hy, rfl⟩ := ha
    simp only [Bind.bind]
    rw [hrow y hy]
    simp [Option.bind]

/-! ## Claim theorems -/

/-- C1: the claim states that for two equal-bounded images differing at
exactly one pixel the comparator returns exactly one rectangle containing
that pixel.  On a 1x128 image pair differing only at (0, 100) the source
returns TWO rectangles, and the first, (0,0)-(1,64), does not contain the
changed pixel: each strip's row scan runs to the image bottom instead of
the strip bottom, so every strip at or above the changed row emits a
rectangle.  This evaluation exhibits the code bug. -/
theorem c1_comparator_strip_overrun :
    (∀ x y : Int, oldImgC1.At x y ≠ newImgC1.At x y ↔ x = 0 ∧ y = 100) ∧
    oldImgC1.bounds = newImgC1.bounds ∧
    compareImages (some oldImgC1) (some newImgC1) =
      some [⟨0, 0, 1, 64⟩, ⟨0, 64, 1, 128⟩] := by
  refine ⟨?_, by decide, by decide⟩
  intro x y
  by_cases h : x = 0 ∧ y = 100
  · simp [oldImgC1, newImgC1, h]
  · simp [oldImgC1, newImgC1, h]

/-- C2: a nil image handle pulled from the frame sink makes the push worker
return with no rectangles and the recorded last image unchanged, and the
comparator returns the empty rectangle list whenever its new-image argument
is nil. -/
theorem c2_nil_frame_empty_rects :
    ∀ (f : PixelFormat) (last : Option Image) (ur : FrameBufferUpdateRequest)
      (img : Image),
      pushFrame f none last ur = some ([], last) ∧
      compareImages (some img) none = some [] := by
  intro f last ur img
  exact ⟨rfl, rfl⟩

/-- C3: a client that sends version "RFB 003.003" + newline and then a
shared flag receives exactly "RFB 003.008" + newline, the u32 security type
1 with no SecurityResult, and the ServerInit record: u16 width and height,
the default pixel format (BPP 16, depth 16, little-endian, truecolour,
maxes 0x1F, shifts 10/5/0), three padding bytes, the u32 length 6 and the
bytes of "rfb-go". -/
theorem c3_v33_handshake_bytes :
    ∀ w h s : Nat,
      serveHandshake w h (v3Bytes ++ [s]) =
        some ([82, 70, 66, 32, 48, 48, 51, 46, 48, 48, 56, 10, 0, 0, 0, 1] ++
          u16be (w % 65536) ++ u16be (h % 65536) ++
          [16, 16, 0, 1, 0, 31, 0, 31, 0, 31, 10, 5, 0, 0, 0, 0, 0, 0, 0, 6,
           114, 102, 98, 45, 103, 111]) := by
  intro w h s
  rfl

/-- C4: channel quantization returns the value shifted right by 11 for max
0x1F and by 14 for max 0x03, and fails (fatally for the connection) on
every other max. -/
theorem c4_inRange_quantization :
    ∀ v : Nat, inRange v 31 = some (v >>> 11) ∧ inRange v 3 = some (v >>> 14) ∧
      ∀ m : Nat, m ≠ 31 → m ≠ 3 → inRange v m = none := by
  intro v
  refine ⟨rfl, rfl, ?_⟩
  intro m h31 h3
  unfold inRange
  split <;> simp_all

/-- C4 witness: the quantization theorem applied at concrete inputs. -/
theorem c4_inRange_quantization_witness :
    inRange 65535 31 = some (65535 >>> 11) ∧ inRange 65535 3 = some (65535 >>> 14) ∧
    inRange 65535 7 = none :=
  ⟨(c4_inRange_quantization 65535).1, (c4_inRange_quantization 65535).2.1,
   (c4_inRange_quantization 65535).2.2 7 (by decide) (by decide)⟩

/-- C5: two update requests with the same incremental flag always produce
identical framebuffer-update bytes and identical rectangle lists, however
their x, y, width, height fields differ; a non-incremental request is
answered with the full image bounds, never the requested sub-rectangle. -/
theorem c5_response_ignores_request_rect :
    ∀ (f : PixelFormat) (img : Image) (last : Option Image)
      (ur1 ur2 : FrameBufferUpdateRequest),
      ur1.IncrementalFlag = ur2.IncrementalFlag →
      pushImage f img last ur1 = pushImage f img last ur2 ∧
      updateRects img last ur1 = updateRects img last ur2 ∧
      (ur1.IncrementalFlag = 0 → updateRects img last ur1 = some [img.bounds]) := by
  intro f img last ur1 ur2 h
  have hinc : ur1.incremental = ur2.incremental := by
    simp [FrameBufferUpdateRequest.incremental, h]
  have hrects : updateRects img last ur1 = updateRects img last ur2 := by
    simp [updateRects, hinc]
  refine ⟨by simp only [pushImage, hrects], hrects, fun h0 => ?_⟩
  simp [updateRects, FrameBufferUpdateRequest.incremental, h0]

/-- C5 witness: two non-incremental requests with different rectangles give
the same response, covering the full image bounds. -/
theorem c5_response_ignores_request_rect_witness :
    pushImage thousandsFormat imgOnePixel none ⟨0, 1, 2, 3, 4⟩ =
      pushImage thousandsFormat imgOnePixel none ⟨0, 5, 6, 7, 8⟩ ∧
    updateRects imgOnePixel none ⟨0, 1, 2, 3, 4⟩ = some [imgOnePixel.bounds] :=
  ⟨(c5_response_ignores_request_rect thousandsFormat imgOnePixel none
      ⟨0, 1, 2, 3, 4⟩ ⟨0, 5, 6, 7, 8⟩ rfl).1,
   (c5_response_ignores_request_rect thousandsFormat imgOnePixel none
      ⟨0, 1, 2, 3, 4⟩ ⟨0, 5, 6, 7, 8⟩ rfl).2.2 rfl⟩

/-- C6 counterexample: the claim says the handler consumes 3 + 16 + 3 = 22
bytes.  On a 22-byte stream the source consumes only 19 bytes — the three
trailing padding bytes are part of the 16-byte record, not in addition to
it — leaving bytes 19, 20, 21 unread. -/
theorem c6_counterexample_three_bytes_left :
    handleSetPixelFormat (List.range 22) =
      some (⟨3, 4, 5, 6, 1800, 2314, 2828, 13, 14, 15⟩, [19, 20, 21]) ∧
    ([19, 20, 21] : List Nat) ≠ [] := ⟨by decide, by decide⟩

/-- C6 (amended): handling SetPixelFormat consumes exactly 19 bytes — 3
padding bytes, the 13 field bytes, and the 3 trailing padding bytes that
complete the 16-byte pixel-format record — and installs the parsed record
verbatim as the connection's format. -/
theorem c6_amended_consumes_19 :
    ∀ s : List Nat, 19 ≤ s.length →
      handleSetPixelFormat s =
        some (⟨s.getD 3 0, s.getD 4 0, s.getD 5 0, s.getD 6 0,
               s.getD 7 0 * 256 + s.getD 8 0, s.getD 9 0 * 256 + s.getD 10 0,
               s.getD 11 0 * 256 + s.getD 12 0, s.getD 13 0, s.getD 14 0,
               s.getD 15 0⟩,
              s.drop 19) := by
  intro s h
  rcases s with _|⟨b0,_|⟨b1,_|⟨b2,_|⟨b3,_|⟨b4,_|⟨b5,_|⟨b6,_|⟨b7,_|⟨b8,_|⟨b9,_|⟨b10,_|⟨b11,_|⟨b12,_|⟨b13,_|⟨b14,_|⟨b15,_|⟨b16,_|⟨b17,_|⟨b18,rest⟩⟩⟩⟩⟩⟩⟩⟩⟩⟩⟩⟩⟩⟩⟩⟩⟩⟩⟩ <;>
    first
      | rfl
      | simp at h

/-- C6 witness: the amended theorem applied to a concrete 19-byte stream. -/
theorem c6_amended_consumes_19_witness :
    handleSetPixelFormat (List.range 19) =
      some (⟨3, 4, 5, 6, 1800, 2314, 2828, 13, 14, 15⟩, []) :=
  c6_amended_consumes_19 (List.range 19) (by decide)

/-- C7: the comparator fails (fatally for the connection) exactly when both
images are nil or both are present with different bounds; on every other
input pair it returns a rectangle list. -/
theorem c7_compareImages_failure_iff :
    ∀ o n : Option Image, compareImages o n = none ↔
      (o = none ∧ n = none) ∨
      (∃ a b, o = some a ∧ n = some b ∧ a.bounds ≠ b.bounds) := by
  intro o n
  cases o <;> cases n <;> simp [compareImages]
  exact ne_comm

/-- C8: the key and pointer handlers parse their fixed-size records and
deliver the tagged event with a non-blocking send; a full queue drops the
event silently and a queue with room appends it, and in neither case does
the handler fail. -/
theorem c8_event_handlers_nonblocking :
    ∀ (s : List Nat) (q : EventQueue), 7 ≤ s.length →
      (handleKeyEvent s q =
        some (trySend q (.key ⟨s.getD 0 0,
          ((s.getD 3 0 * 256 + s.getD 4 0) * 256 + s.getD 5 0) * 256 + s.getD 6 0⟩),
          s.drop 7)) ∧
      (handlePointerEvent s q =
        some (trySend q (.pointer ⟨s.getD 0 0, s.getD 1 0 * 256 + s.getD 2 0,
          s.getD 3 0 * 256 + s.getD 4 0⟩), s.drop 5)) ∧
      (∀ e, q.cap ≤ q.buf.length → trySend q e = q) ∧
      (∀ e, q.buf.length < q.cap → trySend q e = ⟨q.cap, q.buf ++ [e]⟩) := by
  intro s q h
  refine ⟨?_, ?_, ?_, ?_⟩
  · rcases s with _|⟨b0,_|⟨b1,_|⟨b2,_|⟨b3,_|⟨b4,_|⟨b5,_|⟨b6,rest⟩⟩⟩⟩⟩⟩⟩ <;>
      first | rfl | simp at h
  · rcases s with _|⟨b0,_|⟨b1,_|⟨b2,_|⟨b3,_|⟨b4,rest⟩⟩⟩⟩⟩ <;>
      first | rfl | simp at h
  · intro e hfull
    rw [trySend, if_neg (by omega)]
  · intro e hlt
    rw [trySend, if_pos hlt]

/-- C8 witness: the handlers applied to a concrete stream, with a full queue
dropping the event and a roomy queue keeping it. -/
theorem c8_event_handlers_nonblocking_witness :
    (handleKeyEvent (List.range 7) roomyQueue =
      some (trySend roomyQueue (.key ⟨0, ((3 * 256 + 4) * 256 + 5) * 256 + 6⟩), [])) ∧
    (handlePointerEvent (List.range 7) roomyQueue =
      some (trySend roomyQueue (.pointer ⟨0, 1 * 256 + 2, 3 * 256 + 4⟩), [5, 6])) ∧
    trySend fullQueue (.key ⟨1, 2⟩) = fullQueue ∧
    trySend roomyQueue (.key ⟨1, 2⟩) = ⟨16, [.key ⟨1, 2⟩]⟩ :=
  ⟨(c8_event_handlers_nonblocking (List.range 7) roomyQueue (by decide)).1,
   (c8_event_handlers_nonblocking (List.range 7) roomyQueue (by decide)).2.1,
   (c8_event_handlers_nonblocking (List.range 7) fullQueue (by decide)).2.2.1 _
     (by decide),
   (c8_event_handlers_nonblocking (List.range 7) roomyQueue (by decide)).2.2.2 _
     (by decide)⟩

/-- C9: a server built by NewServer has width and height at least 1;
arguments below 1 are replaced by 1 and arguments of at least 1 are kept,
and the dimensions read back later are exactly the constructed ones. -/
theorem c9_newServer_clamps_dimensions :
    ∀ w h : Int, 1 ≤ (NewServer w h).width ∧ 1 ≤ (NewServer w h).height ∧
      (NewServer w h).width = max 1 w ∧ (NewServer w h).height = max 1 h ∧
      dimensions (NewServer w h) = (max 1 w, max 1 h) := by
  intro w h
  simp only [NewServer, dimensions, Prod.mk.injEq]
  split_ifs <;> omega

/-- C10: on a contiguous RGBA image with stride width*4, encoded over its
full bounds under the Thousands pixel format (BPP 16, truecolour, channel
maxes 0x1F, shifts 10/5/0, either endianness), the fast path writes exactly
the bytes of the generic slow path. -/
theorem c10_fast_slow_paths_agree (f : PixelFormat) (im : RGBAImage)
    (hbpp : f.BPP = 16) (_htc : f.TrueColour ≠ 0) (hrm : f.RedMax = 31)
    (hgm : f.GreenMax = 31) (hbm : f.BlueMax = 31) (hrs : f.RedShift = 10)
    (hgs : f.GreenShift = 5) (hbs : f.BlueShift = 0)
    (hlen : im.pix.length = 4 * (im.w * im.h)) (hbytes : ∀ b ∈ im.pix, b < 256) :
    pushGenericLocked f im.toImage im.toImage.bounds =
      some (pushRGBAScreensThousandsLocked (f.BigEndian != 0) im.pix) := by
  have hb : im.toImage.bounds = mkRect 0 0 im.w im.h := rfl
  rw [hb, pushGeneric_thousands f im hbpp hrm hgm hbm hrs hgs hbs hbytes]
  unfold pushRGBAScreensThousandsLocked
  rw [fastGo_flat (f.BigEndian != 0) (im.w * im.h) im.pix 0 0 hlen rfl]

/-- C10 witness: path equivalence at a concrete one-pixel image under the
default Thousands format. -/
theorem c10_fast_slow_paths_agree_witness :
    pushGenericLocked thousandsFormat rgbaOnePixel.toImage rgbaOnePixel.toImage.bounds =
      some (pushRGBAScreensThousandsLocked (thousandsFormat.BigEndian != 0)
        rgbaOnePixel.pix) :=
  c10_fast_slow_paths_agree thousandsFormat rgbaOnePixel rfl (by decide) rfl rfl rfl
    rfl rfl rfl (by decide) (by decide)

end RFB
